import Mathlib

/-!
Verification development for the govuk legislation scraper (`scraper.py`).

The script is embedded shallowly:

* the HTTP transport (`requests.get`) becomes an oracle `Net : String → Option HTTPResponse`
  (`none` models a transport-level `RequestException`);
* the HTML parser (`BeautifulSoup`) becomes an oracle `String → Doc`, where `Doc`
  records exactly the three projections the script queries: the anchors of the
  `timelineData` div, the anchors inside `td` cells of the `content` div, and the
  anchors of the `prevPagesNextNav` div (each `none` when the div is absent);
* `urllib.parse.urljoin` becomes an oracle `String → String → String`;
* side effects are made explicit: network activity is a trace of `Ev` events
  (`sleep` for `time.sleep`, `request` for each `requests.get`), and the
  filesystem is a `FS` value (an association list of file contents plus a
  directory list);
* Python exceptions become `Except PyErr`: `ValueError` raised by `fetchHTML`
  with its three messages, the `AttributeError` raised by calling a method on
  `None`, and an uncaught `requests` exception.

Python string operations that the script uses (`in`, `split('/')`, `[-1]`,
slices, `join`) are re-implemented as structural recursions over `String.data`
so that every definition evaluates inside the kernel.
-/

namespace Scraper

/-- Observable effects of a run: a blocking wait of `d` time units
(`time.sleep`), or one network request to `url` (`requests.get`). -/
inductive Ev where
  | sleep (d : Nat) : Ev
  | request (url : String) : Ev
deriving DecidableEq, Repr

/-- Python exceptions that the script can raise.  The first three are the
`ValueError`s of `fetchHTML` (by message): `unavailable` is the spec's
SoftFailure, `invalidText` its InvalidRequest, `somethingElse` its
NetworkError.  `attributeError` models calling `find_all` on `None`;
`requestException` models an uncaught `requests` transport error. -/
inductive PyErr where
  | unavailable : PyErr
  | invalidText : PyErr
  | somethingElse : PyErr
  | attributeError : PyErr
  | requestException : PyErr
deriving DecidableEq, Repr

/-- An HTTP response as the script observes it: `response.status_code` and
`response.text`. -/
structure HTTPResponse where
  status : Nat
  text : String
deriving DecidableEq, Repr

/-- The transport oracle: `none` is a transport-level exception. -/
abbrev Net := String → Option HTTPResponse

/-- The parsed document, restricted to the three projections the script
queries.  Each field is `none` when the corresponding div is absent. -/
structure Doc where
  timelineData : Option (List String)
  contentTds : Option (List (List String))
  prevPagesNextNav : Option (List String)
deriving DecidableEq, Repr

/-- The external collaborators of the script (transport, HTML parsing, URL
resolution), bundled. -/
structure Env where
  net : Net
  parse : String → Doc
  urljoin : String → String → String

instance exceptDecEq {ε α : Type} [DecidableEq ε] [DecidableEq α] : DecidableEq (Except ε α)
  | Except.error e, Except.error f =>
    if h : e = f then isTrue (by rw [h]) else isFalse (fun hc => h (Except.error.inj hc))
  | Except.error _, Except.ok _ => isFalse (fun hc => Except.noConfusion hc)
  | Except.ok _, Except.error _ => isFalse (fun hc => Except.noConfusion hc)
  | Except.ok x, Except.ok y =>
    if h : x = y then isTrue (by rw [h]) else isFalse (fun hc => h (Except.ok.inj hc))

/-- `BASE_URL = "http://www.legislation.gov.uk"`. -/
def BASE_URL : String := "http://www.legislation.gov.uk"

/-- The "unavailable in web-publishable format" marker text. -/
def UNAVAILABLE_TEXT : String := "This item of legislation isn’t available on this site as it isn’t currently available in a web-publishable format. This could be because the new legislation item hasn’t published yet."

/-- The "page could not be found" marker text. -/
def COULDNT_FIND_TEXT : String := "The page you requested could not be found."

/-- The "request not recognised" marker text. -/
def INVALID_TEXT : String := "Your request is not recognised."

/-- `DATA_DIR = "legislation_data"`. -/
def DATA_DIR : String := "legislation_data"

/-- The static category → type-code table, in declaration order. -/
def LEGISLATION_TYPES : List (String × List String) :=
  [("Primary Legislation", ["ukpga", "ukla", "ukppa", "gbla", "apgb", "gbppa", "aep", "aosp", "asp", "aip", "apni", "mnia", "nia", "ukcm", "mwa", "anaw", "asc"]),
   ("Secondary Legislation", ["uksi", "ssi", "wsi", "nisr", "ukci", "nisi", "ukmo", "nisro"]),
   ("Draft Legislation", ["ukdsi", "sdsi", "nidsr", "nidsi", "wdsi"])]

/-- Is `pat` an initial segment of `l`?  (Structural helper for Python's
`in` on strings.) -/
def pyIsPre : List Char → List Char → Bool
  | [], _ => true
  | _ :: _, [] => false
  | a :: as, b :: bs => a == b && pyIsPre as bs

/-- Does `pat` occur contiguously in `l`? -/
def pyInfixAux (pat : List Char) : List Char → Bool
  | [] => pyIsPre pat []
  | c :: cs => pyIsPre pat (c :: cs) || pyInfixAux pat cs

/-- Python's `pat in s` substring test. -/
def strContains (s pat : String) : Bool := pyInfixAux pat.data s.data

/-- Python's `s.endswith(suf)` (used only in specification statements, to
single out the document files `*.html` and the sidecar `errorURL.txt`). -/
def strEndsWith (s suf : String) : Bool := pyIsPre suf.data.reverse s.data.reverse

/-- Last character of a string, if any. -/
def lastChar (s : String) : Option Char := s.data.getLast?

/-- Python's `s.split(c)` on a single-character separator, on char lists. -/
def pySplitChar (c : Char) : List Char → List (List Char)
  | [] => [[]]
  | x :: xs =>
    match pySplitChar c xs with
    | [] => [[]]
    | h :: t => if x == c then [] :: h :: t else (x :: h) :: t

/-- Python's `s.split(c)` on a single-character separator. -/
def pySplit (s : String) (c : Char) : List String :=
  (pySplitChar c s.data).map (fun l => String.mk l)

/--
`fetchHTML(url)` (scraper.py lines 23–42).  Sleeps one time unit, issues the
request, and classifies the response:

* marker text "unavailable in web-publishable format" present, or status 500,
  or status ≠ 200, or marker text "page could not be found" present →
  `ValueError "… unavailable"` (= `PyErr.unavailable`, the spec's SoftFailure);
* marker text "request not recognised" present → `ValueError "… invalid text"`;
* a transport-level `RequestException` → `ValueError "… something else"`;
* otherwise success with the raw body.

Returns the event trace next to the result.
-/
def fetchHTML (net : Net) (url : String) : List Ev × Except PyErr String :=
  ([Ev.sleep 1, Ev.request url],
    match net url with
    | none => Except.error PyErr.somethingElse
    | some response =>
      if strContains response.text UNAVAILABLE_TEXT || response.status == 500
          || response.status != 200 || strContains response.text COULDNT_FIND_TEXT then
        Except.error PyErr.unavailable
      else if strContains response.text INVALID_TEXT then
        Except.error PyErr.invalidText
      else
        Except.ok response.text)

/--
`fetchAvailableYears(legislation_type)` (scraper.py lines 44–50).  Fetches the
type's root page, finds the `timelineData` div, and keeps every anchor href
without a hyphen, resolved by string concatenation with `BASE_URL`.  When the
div is absent, `timeline_div.find_all` in the source is an attribute access on
`None` and raises `AttributeError`.
-/
def fetchAvailableYears (net : Net) (parse : String → Doc) (legislation_type : String) :
    List Ev × Except PyErr (List String) :=
  let r := fetchHTML net (BASE_URL ++ "/" ++ legislation_type)
  (r.1,
    match r.2 with
    | Except.error e => Except.error e
    | Except.ok html =>
      match (parse html).timelineData with
      | none => Except.error PyErr.attributeError
      | some hrefs =>
        Except.ok ((hrefs.filter (fun href => !(strContains href "-"))).map
          (fun href => BASE_URL ++ href)))

/-- `extract_table_hrefs(soup)` (scraper.py lines 52–58): all anchor hrefs of
all `td` cells of the `content` div; `[]` when the div is absent. -/
def extract_table_hrefs (soup : Doc) : List String :=
  match soup.contentTds with
  | none => []
  | some tds => tds.flatten

/-- `extract_pagination_links(soup)` (scraper.py lines 60–71): the anchor
hrefs of the `prevPagesNextNav` div, resolved with `urljoin` and
deduplicated.  (The source's final `list(set(links))` pass permutes a list
that is already duplicate-free; we keep first-occurrence order, which has the
same elements.) -/
def extract_pagination_links (uj : String → String → String) (soup : Doc) : List String :=
  match soup.prevPagesNextNav with
  | none => []
  | some anchors =>
    anchors.foldl (fun links a =>
      let full_url := uj BASE_URL a
      if links.contains full_url then links else links ++ [full_url]) []

/-- `all_hrefs.update(new)` for the Python set `all_hrefs`, modelled as a
duplicate-free list in insertion order. -/
def setUpdate (acc : List String) (new : List String) : List String :=
  new.foldl (fun a h => if a.contains h then a else a ++ [h]) acc

/-- One insertion step of insertion sort by code-point order. -/
def insertSorted (x : String) : List String → List String
  | [] => [x]
  | y :: ys => if x.data ≤ y.data then x :: y :: ys else y :: insertSorted x ys

/-- Python's `sorted` on a duplicate-free collection of strings (code-point
lexicographic order), as insertion sort. -/
def sortStrings (l : List String) : List String := l.foldr insertSorted []

/-- The loop of `fetchAvailablePages` over the pagination URLs (scraper.py
lines 87–90): each is fetched with a bare `requests.get` (no delay, no
classification; a transport error propagates), parsed, and its table hrefs
merged into the accumulating set. -/
def paginLoop (env : Env) (acc : List String) : List String → List Ev × Except PyErr (List String)
  | [] => ([], Except.ok acc)
  | u :: us =>
    match env.net u with
    | none => ([Ev.request u], Except.error PyErr.requestException)
    | some page =>
      let acc' := setUpdate acc (extract_table_hrefs (env.parse page.text))
      let r := paginLoop env acc' us
      (Ev.request u :: r.1, r.2)

/--
`fetchAvailablePages(start_url)` (scraper.py lines 73–93).  Fetches the first
listing page with a bare `requests.get`, collects its table hrefs, reads the
pagination links from that first page only, fetches each of them, and finally
maps every accumulated href to `BASE_URL + href + "/data.html"` in sorted
order.
-/
def fetchAvailablePages (env : Env) (start_url : String) : List Ev × Except PyErr (List String) :=
  match env.net start_url with
  | none => ([Ev.request start_url], Except.error PyErr.requestException)
  | some response =>
    let soup := env.parse response.text
    let all0 := setUpdate [] (extract_table_hrefs soup)
    let page_urls := extract_pagination_links env.urljoin soup
    let r := paginLoop env all0 page_urls
    (Ev.request start_url :: r.1,
      match r.2 with
      | Except.error e => Except.error e
      | Except.ok all_hrefs =>
        Except.ok ((sortStrings all_hrefs).map (fun href => BASE_URL ++ href ++ "/data.html")))

/-- The filesystem as the script sees it: file contents keyed by path, plus
the set of created directories.  `os.path.exists` is only ever called on file
paths, so it consults `files` alone. -/
structure FS where
  files : List (String × String)
  dirs : List String
deriving DecidableEq, Repr

/-- Content of the file at `p`, if present. -/
def FS.read (fs : FS) (p : String) : Option String :=
  (fs.files.find? (fun kv => kv.1 == p)).map (fun kv => kv.2)

/-- `os.path.exists(p)` for a file path. -/
def FS.pathExists (fs : FS) (p : String) : Bool := (fs.read p).isSome

/-- `open(p, "w").write(c)`: create or replace the file at `p`. -/
def FS.write (fs : FS) (p c : String) : FS :=
  { fs with files := (p, c) :: fs.files.filter (fun kv => !(kv.1 == p)) }

/-- `os.makedirs(..., exist_ok=True)`: idempotently record the directory and
its ancestors. -/
def FS.mkdirAll (fs : FS) (ds : List String) : FS :=
  { fs with dirs := ds.foldl (fun acc d => if acc.contains d then acc else acc ++ [d]) fs.dirs }

/-- State threaded through `main`: the filesystem, the trace of network
events, and the type codes whose processing has begun (the script's
"Processing …" progress line). -/
structure RunState where
  fs : FS
  events : List Ev
  started : List String
deriving DecidableEq, Repr

/-- `os.path.join(DATA_DIR, f"{category}/{type}")`. -/
def dirPath (cat t : String) : String := DATA_DIR ++ "/" ++ cat ++ "/" ++ t

/-- The per-type error sidecar `errorURL.txt` path. -/
def errPath (cat t : String) : String := dirPath cat t ++ "/errorURL.txt"

/-- The derived document file path (scraper.py line 109):
`dir/year-<seg4>-<seg5>-<seg6>.html` where the segments come from
`pageURL.split('/')[4:7]`. -/
def docFilePath (dir_path year pageURL : String) : String :=
  dir_path ++ "/" ++ year ++ "-" ++
    String.intercalate "-" (((pySplit pageURL '/').drop 4).take 3) ++ ".html"

/-- The body of the per-document loop (scraper.py lines 108–117): skip when
the derived file exists; otherwise fetch, writing the body on success and
appending the URL to the error list on any `ValueError`. -/
def processDocument (env : Env) (fs : FS) (errs : List String) (dir_path year pageURL : String) :
    FS × List String × List Ev :=
  let file_path := docFilePath dir_path year pageURL
  if fs.pathExists file_path then (fs, errs, [])
  else
    let r := fetchHTML env.net pageURL
    match r.2 with
    | Except.ok html => (fs.write file_path html, errs, r.1)
    | Except.error _ => (fs, errs ++ [pageURL], r.1)

/-- The per-document loop over one year's sorted document URLs. -/
def processDocs (env : Env) (dir_path year : String) :
    FS → List String → List String → FS × List String × List Ev
  | fs, errs, [] => (fs, errs, [])
  | fs, errs, u :: us =>
    let r := processDocument env fs errs dir_path year u
    let rest := processDocs env dir_path year r.1 r.2.1 us
    (rest.1, rest.2.1, r.2.2 ++ rest.2.2)

/-- The body of the per-year loop (scraper.py lines 103–117): enumerate the
year's documents (a failure here propagates), derive the year label, create
the destination directory, then run the document loop. -/
def processYear (env : Env) (cat t : String) (fs : FS) (errs : List String) (yearURL : String) :
    (FS × List String × List Ev) × Option PyErr :=
  let r := fetchAvailablePages env yearURL
  match r.2 with
  | Except.error e => ((fs, errs, r.1), some e)
  | Except.ok pageURLs =>
    let year := (pySplit yearURL '/').getLastD ""
    let fs1 := fs.mkdirAll [DATA_DIR, DATA_DIR ++ "/" ++ cat, dirPath cat t]
    let d := processDocs env (dirPath cat t) year fs1 errs pageURLs
    ((d.1, d.2.1, r.1 ++ d.2.2), none)

/-- The per-year loop; a year failure aborts the remaining years. -/
def processYears (env : Env) (cat t : String) :
    FS → List String → List String → (FS × List String × List Ev) × Option PyErr
  | fs, errs, [] => ((fs, errs, []), none)
  | fs, errs, y :: ys =>
    let r := processYear env cat t fs errs y
    match r.2 with
    | some e => (r.1, some e)
    | none =>
      let rest := processYears env cat t r.1.1 r.1.2.1 ys
      ((rest.1.1, rest.1.2.1, r.1.2.2 ++ rest.1.2.2), rest.2)

/-- The body of the per-type loop (scraper.py lines 100–121): enumerate the
years (a failure propagates), run the year loop with a fresh error list, and
finally, when the error list is non-empty, write it newline-joined to the
type's `errorURL.txt`. -/
def processType (env : Env) (st : RunState) (cat t : String) : RunState × Option PyErr :=
  let st0 : RunState := { st with started := st.started ++ [t] }
  let ry := fetchAvailableYears env.net env.parse t
  let st1 : RunState := { st0 with events := st0.events ++ ry.1 }
  match ry.2 with
  | Except.error e => (st1, some e)
  | Except.ok yearURLs =>
    let r := processYears env cat t st1.fs [] yearURLs
    let st2 : RunState := { st1 with fs := r.1.1, events := st1.events ++ r.1.2.2 }
    match r.2 with
    | some e => (st2, some e)
    | none =>
      if r.1.2.1.isEmpty then (st2, none)
      else
        ({ st2 with fs := st2.fs.write (errPath cat t) (String.intercalate "\n" r.1.2.1) },
          none)

/-- The loop over one category's type codes; an uncaught exception aborts the
rest. -/
def processTypes (env : Env) (cat : String) :
    RunState → List String → RunState × Option PyErr
  | st, [] => (st, none)
  | st, t :: ts =>
    let r := processType env st cat t
    match r.2 with
    | some e => (r.1, some e)
    | none => processTypes env cat r.1 ts

/-- The loop over the categories of `LEGISLATION_TYPES`; an uncaught exception
aborts the rest. -/
def processCats (env : Env) :
    RunState → List (String × List String) → RunState × Option PyErr
  | st, [] => (st, none)
  | st, (cat, ts) :: cs =>
    let r := processTypes env cat st ts
    match r.2 with
    | some e => (r.1, some e)
    | none => processCats env r.1 cs

/-- The initial run state over a given filesystem. -/
def initState (fs : FS) : RunState := ⟨fs, [], []⟩

/-- `main()` (scraper.py lines 95–121), started on filesystem `fs`.  The
second component is `some e` when an uncaught exception aborted the run. -/
def main (env : Env) (fs : FS) : RunState × Option PyErr :=
  processCats env (initState fs) LEGISLATION_TYPES

/-- Modelled from the spec's words "the DocumentURLs that failed fetch during
that type's run": replay one year's document list, collecting the URLs whose
fetch fails, together with the resulting file state (`os.path.exists` never
consults directories, so directory creation is irrelevant here). -/
def failedFetchesDocs (env : Env) (dir_path year : String) :
    FS → List String → FS × List String
  | fs, [] => (fs, [])
  | fs, u :: us =>
    let path := docFilePath dir_path year u
    if fs.pathExists path then failedFetchesDocs env dir_path year fs us
    else
      match (fetchHTML env.net u).2 with
      | Except.ok html => failedFetchesDocs env dir_path year (fs.write path html) us
      | Except.error _ =>
        let r := failedFetchesDocs env dir_path year fs us
        (r.1, u :: r.2)

/-- Modelled from the spec's words: the DocumentURLs that failed fetch across
a type's years, in processing order. -/
def failedFetchesYears (env : Env) (dir_path : String) :
    FS → List String → FS × List String
  | fs, [] => (fs, [])
  | fs, y :: ys =>
    match (fetchAvailablePages env y).2 with
    | Except.error _ => (fs, [])
    | Except.ok pages =>
      let year := (pySplit y '/').getLastD ""
      let r1 := failedFetchesDocs env dir_path year fs pages
      let r2 := failedFetchesYears env dir_path r1.1 ys
      (r2.1, r1.2 ++ r2.2)

/-- The URLs of the `request` events of a trace, in order. -/
def requestedURLs : List Ev → List String
  | [] => []
  | Ev.sleep _ :: es => requestedURLs es
  | Ev.request u :: es => u :: requestedURLs es

/-- Does a trace consist of bare requests, with no waits at all? -/
def noSleeps (es : List Ev) : Bool :=
  es.all (fun e => match e with | Ev.request _ => true | Ev.sleep _ => false)

/-- Is every `request` of the trace immediately preceded by a `sleep`?  This
is the claim's "unconditional blocking wait preceding each fetch". -/
def allRequestsDelayed : List Ev → Bool
  | [] => true
  | Ev.sleep _ :: Ev.request _ :: rest => allRequestsDelayed rest
  | Ev.sleep _ :: rest => allRequestsDelayed rest
  | Ev.request _ :: _ => false

/-- A response that triggers none of the marker texts. -/
def respOK : HTTPResponse := ⟨200, "x"⟩

/-- Witness environment: the transport always fails. -/
def envFail : Env := ⟨fun _ => none, fun _ => ⟨none, none, none⟩, fun _ h => h⟩

/-- Witness environment: every page parses to one timeline year `/2024`, one
table href `/id/a`, and no pagination nav. -/
def envHappy : Env :=
  ⟨fun _ => some respOK, fun _ => ⟨some ["/2024"], some [["/id/a"]], none⟩, fun _ h => h⟩

/-- Witness environment: like `envHappy` but the document data page itself
answers with status 500, so its fetch soft-fails. -/
def envSoft : Env :=
  ⟨fun u => if u == "http://www.legislation.gov.uk/id/a/data.html" then some ⟨500, "x"⟩
      else some respOK,
    fun _ => ⟨some ["/2024"], some [["/id/a"]], none⟩, fun _ h => h⟩

/-- Witness environment: the listing page's pagination nav holds a self-link
to the listing page `S` itself. -/
def envSelf : Env :=
  ⟨fun _ => some respOK, fun _ => ⟨none, some [], some ["S"]⟩, fun _ h => h⟩

/-- Witness environment: pages fetch fine but parse to a document with no
`timelineData` div at all. -/
def envNoTimeline : Env :=
  ⟨fun _ => some respOK, fun _ => ⟨none, none, none⟩, fun _ h => h⟩

/-- A filesystem already holding the file that `docFilePath "d" "y" "u"`
derives. -/
def fsW : FS := ⟨[("d/y-.html", "c")], []⟩

/-- A filesystem holding one previously downloaded document file. -/
def fs0 : FS := ⟨[("a.html", "v")], []⟩

/-- The empty filesystem. -/
def fsE : FS := ⟨[], []⟩

/-- A transport whose every response is a 200 page carrying the
"unavailable in web-publishable format" marker text. -/
def netMarker : Net := fun _ => some ⟨200, UNAVAILABLE_TEXT⟩

/-- Claim C2: a 200 response whose body carries the "unavailable in
web-publishable format" marker (or the "page could not be found" marker), and
likewise any response with status 500 or any status other than 200, makes
`fetchHTML` fail with the SoftFailure `ValueError` rather than succeed. -/
theorem c2_soft_failure_classification (net : Net) (url : String) (r : HTTPResponse)
    (hr : net url = some r)
    (hc : strContains r.text UNAVAILABLE_TEXT = true
      ∨ strContains r.text COULDNT_FIND_TEXT = true
      ∨ r.status = 500 ∨ r.status ≠ 200) :
    (fetchHTML net url).2 = Except.error PyErr.unavailable := by
  have hcond : (strContains r.text UNAVAILABLE_TEXT || r.status == 500
      || r.status != 200 || strContains r.text COULDNT_FIND_TEXT) = true := by
    rcases hc with h | h | h | h
    · simp [h]
    · simp [h]
    · simp [h]
    · simp [h]
  simp [fetchHTML, hr, hcond]

/-- Witness for C2 at a concrete 200-status marker-text response. -/
theorem c2_witness :
    netMarker "u" = some ⟨200, UNAVAILABLE_TEXT⟩
    ∧ (fetchHTML netMarker "u").2 = Except.error PyErr.unavailable :=
  ⟨rfl, c2_soft_failure_classification netMarker "u" ⟨200, UNAVAILABLE_TEXT⟩ rfl
    (Or.inl (by decide))⟩

/-- Claim C4 fails on the code: under `envNoTimeline` the root page fetch
succeeds, yet `fetchAvailableYears` raises `AttributeError` (the source calls
`find_all` on the `None` returned for the missing `timelineData` div) instead
of returning an empty sequence. -/
theorem c4_counterexample :
    (envNoTimeline.net (BASE_URL ++ "/ukpga")).isSome = true
    ∧ (fetchAvailableYears envNoTimeline.net envNoTimeline.parse "ukpga").2
        = Except.error PyErr.attributeError
    ∧ (fetchAvailableYears envNoTimeline.net envNoTimeline.parse "ukpga").2
        ≠ Except.ok [] :=
  ⟨rfl, by decide, by decide⟩

/-- Claim C4 as amended: when the root fetch succeeds, a timeline region with
no links yields an empty sequence, but a missing timeline region raises
`AttributeError`; when the root fetch fails, the fetcher's failure is
propagated. -/
theorem c4_amended_empty_only_with_region :
    (∀ (net : Net) (ps : String → Doc) (t html : String),
      (fetchHTML net (BASE_URL ++ "/" ++ t)).2 = Except.ok html →
      (((ps html).timelineData = some [] →
          (fetchAvailableYears net ps t).2 = Except.ok [])
        ∧ ((ps html).timelineData = none →
          (fetchAvailableYears net ps t).2 = Except.error PyErr.attributeError)))
    ∧ (∀ (net : Net) (ps : String → Doc) (t : String) (e : PyErr),
        (fetchHTML net (BASE_URL ++ "/" ++ t)).2 = Except.error e →
        (fetchAvailableYears net ps t).2 = Except.error e) := by
  constructor
  · intro net ps t html hh
    constructor
    · intro htl
      simp [fetchAvailableYears, hh, htl]
    · intro htl
      simp [fetchAvailableYears, hh, htl]
  · intro net ps t e hh
    simp [fetchAvailableYears, hh]

/-- Witness for the amended C4 at `envNoTimeline`. -/
theorem c4_witness :
    (fetchHTML envNoTimeline.net (BASE_URL ++ "/" ++ "ukpga")).2 = Except.ok "x"
    ∧ (envNoTimeline.parse "x").timelineData = none
    ∧ (fetchAvailableYears envNoTimeline.net envNoTimeline.parse "ukpga").2
        = Except.error PyErr.attributeError :=
  ⟨by decide, rfl,
    (c4_amended_empty_only_with_region.1 envNoTimeline.net envNoTimeline.parse
      "ukpga" "x" (by decide)).2 rfl⟩

/-- Claim C8: every href of the timeline region containing a hyphen is
excluded from the enumerated years, and every hyphen-free href is included,
resolved against the site's base origin. -/
theorem c8_hyphen_filter (net : Net) (ps : String → Doc) (t html : String)
    (hrefs : List String)
    (hh : (fetchHTML net (BASE_URL ++ "/" ++ t)).2 = Except.ok html)
    (htl : (ps html).timelineData = some hrefs) :
    (fetchAvailableYears net ps t).2
        = Except.ok ((hrefs.filter (fun href => !(strContains href "-"))).map
            (fun href => BASE_URL ++ href))
    ∧ (∀ href ∈ hrefs, strContains href "-" = false →
        (BASE_URL ++ href) ∈ ((hrefs.filter (fun href => !(strContains href "-"))).map
          (fun href => BASE_URL ++ href)))
    ∧ (∀ u ∈ ((hrefs.filter (fun href => !(strContains href "-"))).map
          (fun href => BASE_URL ++ href)),
        ∃ href ∈ hrefs, strContains href "-" = false ∧ u = BASE_URL ++ href) := by
  refine ⟨by simp [fetchAvailableYears, hh, htl], ?_, ?_⟩
  · intro href hm hfree
    exact List.mem_map.mpr ⟨href, List.mem_filter.mpr ⟨hm, by simp [hfree]⟩, rfl⟩
  · intro u hu
    rcases List.mem_map.mp hu with ⟨href, hf, rfl⟩
    rcases List.mem_filter.mp hf with ⟨hm, hfree⟩
    exact ⟨href, hm, by simpa using hfree, rfl⟩

/-- Witness for C8 at `envHappy` (timeline hrefs `["/2024"]`). -/
theorem c8_witness :
    (fetchHTML envHappy.net (BASE_URL ++ "/" ++ "ukpga")).2 = Except.ok "x"
    ∧ (envHappy.parse "x").timelineData = some ["/2024"]
    ∧ (fetchAvailableYears envHappy.net envHappy.parse "ukpga").2
        = Except.ok ["http://www.legislation.gov.uk/2024"] := by
  refine ⟨by decide, rfl, ?_⟩
  have h := (c8_hyphen_filter envHappy.net envHappy.parse "ukpga" "x" ["/2024"]
    (by decide) rfl).1
  rw [h]
  decide

/-- Claim C7: a type whose root index fetch dies with a transport-level
`NetworkError` leaves the filesystem entirely untouched (no files, no
directories) and propagates the failure instead of logging it. -/
theorem c7_root_failure_propagates (env : Env) (st : RunState) (cat t : String)
    (h : env.net (BASE_URL ++ "/" ++ t) = none) :
    processType env st cat t
      = (RunState.mk st.fs
          (st.events ++ [Ev.sleep 1, Ev.request (BASE_URL ++ "/" ++ t)])
          (st.started ++ [t]),
          some PyErr.somethingElse)
    ∧ (processType env st cat t).1.fs = st.fs := by
  have hmain : processType env st cat t
      = (RunState.mk st.fs
          (st.events ++ [Ev.sleep 1, Ev.request (BASE_URL ++ "/" ++ t)])
          (st.started ++ [t]),
          some PyErr.somethingElse) := by
    simp [processType, fetchAvailableYears, fetchHTML, h]
  exact ⟨hmain, by rw [hmain]⟩

/-- Witness for C7: the always-failing transport on a fresh run state. -/
theorem c7_witness :
    envFail.net (BASE_URL ++ "/" ++ "ukpga") = none
    ∧ (processType envFail (initState fs0) "Primary Legislation" "ukpga").1.fs = fs0 :=
  ⟨rfl, (c7_root_failure_propagates envFail (initState fs0) "Primary Legislation" "ukpga"
    rfl).2⟩

/-- The pagination loop issues exactly one bare request per pagination URL
when every transport call answers. -/
theorem paginLoop_events (env : Env) :
    ∀ (us : List String) (acc : List String),
      (∀ u ∈ us, (env.net u).isSome = true) →
      (paginLoop env acc us).1 = us.map Ev.request := by
  intro us
  induction us with
  | nil => intro acc _; rfl
  | cons u us ih =>
    intro acc hall
    have hu : (env.net u).isSome = true := hall u (List.mem_cons_self u us)
    cases hn : env.net u with
    | none => rw [hn] at hu; simp at hu
    | some page =>
      have hrest : ∀ v ∈ us, (env.net v).isSome = true :=
        fun v hv => hall v (List.mem_cons_of_mem u hv)
      simp [paginLoop, hn, ih _ hrest]

/-- The pagination loop never emits a `sleep` event. -/
theorem paginLoop_noSleeps (env : Env) :
    ∀ (us : List String) (acc : List String), noSleeps (paginLoop env acc us).1 = true := by
  intro us
  induction us with
  | nil => intro acc; rfl
  | cons u us ih =>
    intro acc
    cases hn : env.net u with
    | none => simp [paginLoop, hn, noSleeps]
    | some page => simpa [paginLoop, hn, noSleeps] using ih _

/-- Projecting the request URLs of a pure request trace. -/
theorem requestedURLs_map_request (us : List String) :
    requestedURLs (us.map Ev.request) = us := by
  induction us with
  | nil => rfl
  | cons u us ih => simp [requestedURLs, ih]

/-- The deduplicating fold of `extract_pagination_links` keeps its
accumulator duplicate-free. -/
theorem dedupFold_nodup (uj : String → String → String) (anchors : List String) :
    ∀ acc : List String, acc.Nodup →
      (anchors.foldl (fun links a =>
        let full_url := uj BASE_URL a
        if links.contains full_url then links else links ++ [full_url]) acc).Nodup := by
  induction anchors with
  | nil => intro acc h; exact h
  | cons a anchors ih =>
    intro acc h
    by_cases hm : uj BASE_URL a ∈ acc
    · simpa [List.foldl_cons, hm] using ih acc h
    · have : (acc ++ [uj BASE_URL a]).Nodup := by
        rw [List.nodup_append]
        exact ⟨h, List.nodup_singleton _, by simpa [List.disjoint_singleton] using hm⟩
      simpa [List.foldl_cons, hm] using ih _ this

/-- The pagination links extracted from a page are pairwise distinct. -/
theorem extract_pagination_links_nodup (uj : String → String → String) (soup : Doc) :
    (extract_pagination_links uj soup).Nodup := by
  unfold extract_pagination_links
  cases soup.prevPagesNextNav with
  | none => exact List.nodup_nil
  | some anchors => exact dedupFold_nodup uj anchors [] List.nodup_nil

/-- Claim C5 fails on the code: under `envSelf` the pagination nav of listing
page `S` holds a self-link, and the page `S` is then fetched twice (once as
the starting page, once as a pagination link). -/
theorem c5_counterexample :
    requestedURLs (fetchAvailablePages envSelf "S").1 = ["S", "S"]
    ∧ List.count "S" (requestedURLs (fetchAvailablePages envSelf "S").1) = 2
    ∧ ¬ (requestedURLs (fetchAvailablePages envSelf "S").1).Nodup :=
  ⟨by decide, by decide, by decide⟩

/-- Claim C5 as amended: the pages fetched are exactly the starting page
followed by the deduplicated pagination links of the first page, so each
pagination link is fetched once; when the nav holds no self-link to the
starting page no page is fetched twice, but a self-link makes the starting
page be fetched a second time. -/
theorem c5_amended_pages_fetched (env : Env) (s : String) (resp : HTTPResponse)
    (hs : env.net s = some resp)
    (hall : ∀ u ∈ extract_pagination_links env.urljoin (env.parse resp.text),
      (env.net u).isSome = true) :
    requestedURLs (fetchAvailablePages env s).1
        = s :: extract_pagination_links env.urljoin (env.parse resp.text)
    ∧ (extract_pagination_links env.urljoin (env.parse resp.text)).Nodup
    ∧ (s ∉ extract_pagination_links env.urljoin (env.parse resp.text) →
        (requestedURLs (fetchAvailablePages env s).1).Nodup) := by
  have hev : (fetchAvailablePages env s).1
      = Ev.request s
        :: (extract_pagination_links env.urljoin (env.parse resp.text)).map Ev.request := by
    simp [fetchAvailablePages, hs, paginLoop_events env _ _ hall]
  have hreq : requestedURLs (fetchAvailablePages env s).1
      = s :: extract_pagination_links env.urljoin (env.parse resp.text) := by
    rw [hev]
    simp [requestedURLs, requestedURLs_map_request]
  refine ⟨hreq, extract_pagination_links_nodup _ _, ?_⟩
  intro hnm
  rw [hreq]
  exact List.nodup_cons.mpr ⟨hnm, extract_pagination_links_nodup _ _⟩

/-- Witness for the amended C5: one listing page with a single pagination
link to a second page. -/
theorem c5_witness :
    envHappy.net "S" = some respOK
    ∧ requestedURLs (fetchAvailablePages envHappy "S").1 = ["S"]
    ∧ (requestedURLs (fetchAvailablePages envHappy "S").1).Nodup := by
  have h := c5_amended_pages_fetched envHappy "S" respOK rfl (by decide)
  exact ⟨rfl, by rw [h.1]; decide, h.2.2 (by decide)⟩

/-- Claim C6 fails on the code: in the pipeline's processing of one type, the
year listing-page request (issued by `fetchAvailablePages` through a bare
`requests.get`) is not preceded by any wait; only `fetchHTML` sleeps. -/
theorem c6_counterexample :
    (processType envHappy (initState fsE) "Primary Legislation" "ukpga").1.events
      = [Ev.sleep 1, Ev.request "http://www.legislation.gov.uk/ukpga",
          Ev.request "http://www.legislation.gov.uk/2024",
          Ev.sleep 1, Ev.request "http://www.legislation.gov.uk/id/a/data.html"]
    ∧ allRequestsDelayed
        (processType envHappy (initState fsE) "Primary Legislation" "ukpga").1.events
      = false :=
  ⟨by decide, by decide⟩

/-- Claim C6 as amended: only the requests issued through `fetchHTML`
(document fetches and type root-index fetches) are preceded by the 1-unit
blocking wait; `fetchAvailablePages` issues all its listing-page and
pagination-page requests with no wait at all. -/
theorem c6_amended_delay_only_in_fetchHTML :
    (∀ (net : Net) (url : String), (fetchHTML net url).1 = [Ev.sleep 1, Ev.request url])
    ∧ (∀ (env : Env) (s : String), noSleeps (fetchAvailablePages env s).1 = true) := by
  constructor
  · intro net url; rfl
  · intro env s
    cases hn : env.net s with
    | none => simp [fetchAvailablePages, hn, noSleeps]
    | some resp => simpa [fetchAvailablePages, hn, noSleeps] using paginLoop_noSleeps env _ _

/-- Splitting the type loop after a successful prefix. -/
theorem processTypes_append_ok (env : Env) (cat : String) :
    ∀ (ts1 : List String) (st st' : RunState),
      processTypes env cat st ts1 = (st', none) →
      ∀ ts2, processTypes env cat st (ts1 ++ ts2) = processTypes env cat st' ts2 := by
  intro ts1
  induction ts1 with
  | nil =>
    intro st st' h ts2
    cases h
    rfl
  | cons t ts ih =>
    intro st st' h ts2
    cases he : (processType env st cat t).2 with
    | some e =>
      rw [processTypes, he] at h
      simp at h
    | none =>
      rw [processTypes, he] at h
      show processTypes env cat st (t :: (ts ++ ts2)) = _
      rw [processTypes, he]
      exact ih _ _ h ts2

/-- Splitting the category loop after a successful prefix. -/
theorem processCats_append_ok (env : Env) :
    ∀ (cs1 : List (String × List String)) (st st' : RunState),
      processCats env st cs1 = (st', none) →
      ∀ cs2, processCats env st (cs1 ++ cs2) = processCats env st' cs2 := by
  intro cs1
  induction cs1 with
  | nil =>
    intro st st' h cs2
    cases h
    rfl
  | cons c cs ih =>
    intro st st' h cs2
    cases he : (processTypes env c.1 st c.2).2 with
    | some e =>
      rw [show c = (c.1, c.2) from rfl, processCats, he] at h
      simp at h
    | none =>
      rw [show c = (c.1, c.2) from rfl, processCats, he] at h
      show processCats env st ((c.1, c.2) :: (cs ++ cs2)) = _
      rw [processCats, he]
      exact ih _ _ h cs2

/-- Claim C9: once year enumeration for one type fails, the exception escapes
both the type loop and the category loop: the whole run ends at the failing
type's state with the error, and no later type of the same category and no
later category contributes anything. -/
theorem c9_enumeration_failure_aborts_run (env : Env) (fs : FS)
    (cs1 : List (String × List String)) (c : String) (ts1 : List String) (t : String)
    (ts2 : List String) (cs2 : List (String × List String)) (st st' : RunState) (e : PyErr)
    (h1 : processCats env (initState fs) cs1 = (st, none))
    (h2 : processTypes env c st ts1 = (st', none))
    (h3 : (processType env st' c t).2 = some e) :
    processCats env (initState fs) (cs1 ++ (c, ts1 ++ t :: ts2) :: cs2)
      = ((processType env st' c t).1, some e) := by
  rw [processCats_append_ok env cs1 (initState fs) st h1 _]
  rw [processCats]
  rw [processTypes_append_ok env c ts1 st st' h2 (t :: ts2)]
  rw [processTypes, h3]

/-- Witness for C9: the always-failing transport aborts the run at the very
first type of a one-type table. -/
theorem c9_witness :
    processCats envFail (initState fs0) [] = (initState fs0, none)
    ∧ processTypes envFail "Primary Legislation" (initState fs0) [] = (initState fs0, none)
    ∧ (processType envFail (initState fs0) "Primary Legislation" "ukpga").2
        = some PyErr.somethingElse
    ∧ processCats envFail (initState fs0)
        ([] ++ ("Primary Legislation", [] ++ "ukpga" :: ["ukla"]) :: [("Draft Legislation", ["wdsi"])])
      = ((processType envFail (initState fs0) "Primary Legislation" "ukpga").1,
          some PyErr.somethingElse) :=
  ⟨rfl, rfl, by decide,
    c9_enumeration_failure_aborts_run envFail fs0 [] "Primary Legislation" [] "ukpga"
      ["ukla"] [("Draft Legislation", ["wdsi"])] (initState fs0) (initState fs0)
      PyErr.somethingElse rfl rfl (by decide)⟩

/-- Reading back a freshly written file. -/
theorem FS.read_write_self (fs : FS) (p c : String) : (fs.write p c).read p = some c := by
  simp [FS.read, FS.write]

/-- `find?` by key ignores entries removed by a different-key filter. -/
theorem find?_filter_other (p q : String) (h : p ≠ q) :
    ∀ l : List (String × String),
      List.find? (fun kv => kv.1 == p) (l.filter (fun kv => !(kv.1 == q)))
        = List.find? (fun kv => kv.1 == p) l := by
  intro l
  induction l with
  | nil => rfl
  | cons kv l ih =>
    by_cases hq : kv.1 = q
    · have h1 : (kv.1 == q) = true := by simp [hq]
      have h2 : (kv.1 == p) = false := by
        simp only [beq_eq_false_iff_ne, ne_eq]
        exact fun hh => h (hh ▸ hq)
      simp only [List.filter_cons, h1, Bool.not_true, Bool.false_eq_true, if_false]
      rw [ih, List.find?_cons, h2]
    · have h1 : (kv.1 == q) = false := by simp [hq]
      by_cases hp : kv.1 = p
      · have h2 : (kv.1 == p) = true := by simp [hp]
        simp only [List.filter_cons, h1, Bool.not_false, if_true]
        rw [List.find?_cons, h2, List.find?_cons, h2]
      · have h2 : (kv.1 == p) = false := by simp [hp]
        simp only [List.filter_cons, h1, Bool.not_false, if_true]
        rw [List.find?_cons, h2, List.find?_cons, h2, ih]

/-- Writing one file leaves every other file's content unchanged. -/
theorem FS.read_write_other (fs : FS) (p q c : String) (h : p ≠ q) :
    (fs.write q c).read p = fs.read p := by
  unfold FS.read FS.write
  have hqp : (q == p) = false := by
    simp only [beq_eq_false_iff_ne, ne_eq]
    exact fun hh => h hh.symm
  simp only [List.find?_cons, hqp]
  rw [find?_filter_other p q h fs.files]

/-- Directory creation never changes file contents. -/
theorem FS.read_mkdirAll (fs : FS) (ds : List String) (p : String) :
    (fs.mkdirAll ds).read p = fs.read p := rfl

/-- The last character of `a ++ b` is the last character of a non-empty `b`. -/
theorem lastChar_append (a b : String) (c : Char) (h : b.data.getLast? = some c) :
    lastChar (a ++ b) = some c := by
  unfold lastChar
  rw [String.data_append, List.getLast?_append, h]
  rfl

/-- Derived document files end in the letter of `.html`. -/
theorem lastChar_docFilePath (d y u : String) : lastChar (docFilePath d y u) = some 'l' :=
  lastChar_append _ ".html" 'l' (by decide)

/-- The error sidecar path ends in the letter of `errorURL.txt`. -/
theorem lastChar_errPath (cat t : String) : lastChar (errPath cat t) = some 't' :=
  lastChar_append _ "/errorURL.txt" 't' (by decide)

/-- Strings with different last characters differ. -/
theorem ne_of_lastChar (p q : String) (hp : lastChar p ≠ lastChar q) : p ≠ q :=
  fun h => hp (by rw [h])

/-- A successful `pyIsPre` pins down the head. -/
theorem pyIsPre_head (a : Char) (as : List Char) :
    ∀ l, pyIsPre (a :: as) l = true → l.head? = some a := by
  intro l h
  cases l with
  | nil => simp [pyIsPre] at h
  | cons b bs =>
    rw [pyIsPre] at h
    have hab : a = b := by simpa [beq_iff_eq] using ((Bool.and_eq_true _ _).mp h).1
    simp [hab]

/-- A string ending in a non-empty suffix ends in that suffix's last
character. -/
theorem strEndsWith_lastChar (p suf : String) (c : Char) (cs : List Char)
    (hs : suf.data.reverse = c :: cs) (h : strEndsWith p suf = true) :
    lastChar p = some c := by
  unfold strEndsWith at h
  rw [hs] at h
  have hh := pyIsPre_head c cs _ h
  unfold lastChar
  rwa [← List.head?_reverse]

/-- The document step never changes the content of a file that already
exists (the write is guarded by the existence check). -/
theorem processDocument_keep (env : Env) (fs : FS) (errs : List String)
    (d y u p c : String) (h : fs.read p = some c) :
    (processDocument env fs errs d y u).1.read p = some c := by
  unfold processDocument
  by_cases hex : fs.pathExists (docFilePath d y u) = true
  · simp [hex, h]
  · have hex' : fs.pathExists (docFilePath d y u) = false := by simpa using hex
    cases hf : (fetchHTML env.net u).2 with
    | ok html =>
      have hne : p ≠ docFilePath d y u := by
        intro hpq
        rw [hpq] at h
        unfold FS.pathExists at hex'
        rw [h] at hex'
        simp at hex'
      simp only [hex', hf, Bool.false_eq_true, if_false]
      rw [FS.read_write_other _ _ _ _ hne]
      exact h
    | error e => simp [hex', hf, h]

/-- The document loop of one year preserves every existing file. -/
theorem processDocs_keep (env : Env) (d y : String) :
    ∀ (us : List String) (fs : FS) (errs : List String) (p c : String),
      fs.read p = some c → (processDocs env d y fs errs us).1.read p = some c := by
  intro us
  induction us with
  | nil => intro fs errs p c h; exact h
  | cons u us ih =>
    intro fs errs p c h
    exact ih _ _ _ _ (processDocument_keep env fs errs d y u p c h)

/-- One year's processing preserves every existing file. -/
theorem processYear_keep (env : Env) (cat t : String) (fs : FS) (errs : List String)
    (y p c : String) (h : fs.read p = some c) :
    (processYear env cat t fs errs y).1.1.read p = some c := by
  unfold processYear
  cases hf : (fetchAvailablePages env y).2 with
  | error e => simp only [hf]; exact h
  | ok pages =>
    simp only [hf]
    refine processDocs_keep env _ _ pages _ errs p c ?_
    rw [FS.read_mkdirAll]
    exact h

/-- The year loop preserves every existing file. -/
theorem processYears_keep (env : Env) (cat t : String) :
    ∀ (ys : List String) (fs : FS) (errs : List String) (p c : String),
      fs.read p = some c → (processYears env cat t fs errs ys).1.1.read p = some c := by
  intro ys
  induction ys with
  | nil => intro fs errs p c h; exact h
  | cons y ys ih =>
    intro fs errs p c h
    unfold processYears
    cases he : (processYear env cat t fs errs y).2 with
    | some e =>
      simp only [he]
      exact processYear_keep env cat t fs errs y p c h
    | none =>
      simp only [he]
      exact ih _ _ p c (processYear_keep env cat t fs errs y p c h)

/-- One type's processing preserves every existing `.html`-last-letter file
(the only unguarded write is the `errorURL.txt` sidecar). -/
theorem processType_keep (env : Env) (st : RunState) (cat t p c : String)
    (h : st.fs.read p = some c) (hl : lastChar p = some 'l') :
    (processType env st cat t).1.fs.read p = some c := by
  unfold processType
  cases hy : (fetchAvailableYears env.net env.parse t).2 with
  | error e => simp only [hy]; exact h
  | ok years =>
    simp only [hy]
    have hkeep := processYears_keep env cat t years st.fs [] p c h
    cases he : (processYears env cat t st.fs [] years).2 with
    | some e => simp only [he]; exact hkeep
    | none =>
      simp only [he]
      by_cases hne : (processYears env cat t st.fs [] years).1.2.1.isEmpty = true
      · simp only [hne, if_true]
        exact hkeep
      · have hne' : (processYears env cat t st.fs [] years).1.2.1.isEmpty = false := by
          simpa using hne
        simp only [hne', Bool.false_eq_true, if_false]
        rw [FS.read_write_other _ _ _ _
          (ne_of_lastChar p _ (by rw [hl, lastChar_errPath]; decide))]
        exact hkeep

/-- The type loop preserves every existing `.html`-last-letter file. -/
theorem processTypes_keep (env : Env) (cat : String) :
    ∀ (ts : List String) (st : RunState) (p c : String),
      st.fs.read p = some c → lastChar p = some 'l' →
      (processTypes env cat st ts).1.fs.read p = some c := by
  intro ts
  induction ts with
  | nil => intro st p c h _; exact h
  | cons t ts ih =>
    intro st p c h hl
    unfold processTypes
    cases he : (processType env st cat t).2 with
    | some e =>
      simp only [he]
      exact processType_keep env st cat t p c h hl
    | none =>
      simp only [he]
      exact ih _ p c (processType_keep env st cat t p c h hl) hl

/-- The category loop preserves every existing `.html`-last-letter file. -/
theorem processCats_keep (env : Env) :
    ∀ (cs : List (String × List String)) (st : RunState) (p c : String),
      st.fs.read p = some c → lastChar p = some 'l' →
      (processCats env st cs).1.fs.read p = some c := by
  intro cs
  induction cs with
  | nil => intro st p c h _; exact h
  | cons cat cs ih =>
    intro st p c h hl
    rw [show cat = (cat.1, cat.2) from rfl, processCats]
    cases he : (processTypes env cat.1 st cat.2).2 with
    | some e =>
      simp only [he]
      exact processTypes_keep env cat.1 cat.2 st p c h hl
    | none =>
      simp only [he]
      exact ih _ p c (processTypes_keep env cat.1 cat.2 st p c h hl) hl

/-- Claim C1: a document whose derived file path already exists is skipped
entirely — the per-document step issues no events (zero fetch calls) and
leaves state untouched — and across a whole (re-)run, any pre-existing
`.html` document file keeps its content: a path once written is never
written again. -/
theorem c1_existing_files_skipped_and_kept :
    (∀ (env : Env) (fs : FS) (errs : List String) (d y u : String),
      fs.pathExists (docFilePath d y u) = true →
      processDocument env fs errs d y u = (fs, errs, []))
    ∧ (∀ (env : Env) (fs : FS) (p c : String),
        fs.read p = some c → strEndsWith p ".html" = true →
        (main env fs).1.fs.read p = some c) := by
  constructor
  · intro env fs errs d y u h
    simp [processDocument, h]
  · intro env fs p c h hsuf
    have hl : lastChar p = some 'l' :=
      strEndsWith_lastChar p ".html" 'l' ['m', 't', 'h', '.'] (by decide) hsuf
    exact processCats_keep env LEGISLATION_TYPES (initState fs) p c h hl

/-- Witness for C1: a filesystem already holding the derived file (step
part), and a previously downloaded `a.html` surviving a full re-run under the
failing transport (run part). -/
theorem c1_witness :
    (fsW.pathExists (docFilePath "d" "y" "u") = true
      ∧ processDocument envFail fsW [] "d" "y" "u" = (fsW, [], []))
    ∧ (fs0.read "a.html" = some "v" ∧ strEndsWith "a.html" ".html" = true
      ∧ (main envFail fs0).1.fs.read "a.html" = some "v") :=
  ⟨⟨by decide, c1_existing_files_skipped_and_kept.1 envFail fsW [] "d" "y" "u" (by decide)⟩,
    ⟨by decide, by decide,
      c1_existing_files_skipped_and_kept.2 envFail fs0 "a.html" "v" (by decide) (by decide)⟩⟩

/-- The document step only ever writes derived `.html` files, so paths with a
different last character are untouched. -/
theorem processDocument_frame (env : Env) (fs : FS) (errs : List String)
    (d y u p : String) (hp : lastChar p ≠ some 'l') :
    (processDocument env fs errs d y u).1.read p = fs.read p := by
  unfold processDocument
  by_cases hex : fs.pathExists (docFilePath d y u) = true
  · simp [hex]
  · have hex' : fs.pathExists (docFilePath d y u) = false := by simpa using hex
    cases hf : (fetchHTML env.net u).2 with
    | ok html =>
      simp only [hex', Bool.false_eq_true, if_false, hf]
      exact FS.read_write_other _ _ _ _
        (ne_of_lastChar p _ (by rw [lastChar_docFilePath]; exact hp))
    | error e => simp [hex', hf]

/-- The document loop leaves non-`.html`-last-letter paths untouched. -/
theorem processDocs_frame (env : Env) (d y : String) :
    ∀ (us : List String) (fs : FS) (errs : List String) (p : String),
      lastChar p ≠ some 'l' →
      (processDocs env d y fs errs us).1.read p = fs.read p := by
  intro us
  induction us with
  | nil => intro fs errs p _; rfl
  | cons u us ih =>
    intro fs errs p hp
    rw [processDocs]
    rw [ih _ _ p hp]
    exact processDocument_frame env fs errs d y u p hp

/-- One year's processing leaves non-`.html`-last-letter paths untouched. -/
theorem processYear_frame (env : Env) (cat t : String) (fs : FS) (errs : List String)
    (y p : String) (hp : lastChar p ≠ some 'l') :
    (processYear env cat t fs errs y).1.1.read p = fs.read p := by
  unfold processYear
  cases hf : (fetchAvailablePages env y).2 with
  | error e => simp only [hf]
  | ok pages =>
    simp only [hf]
    rw [processDocs_frame env _ _ pages _ errs p hp]
    exact FS.read_mkdirAll fs _ p

/-- The year loop leaves non-`.html`-last-letter paths untouched. -/
theorem processYears_frame (env : Env) (cat t : String) :
    ∀ (ys : List String) (fs : FS) (errs : List String) (p : String),
      lastChar p ≠ some 'l' →
      (processYears env cat t fs errs ys).1.1.read p = fs.read p := by
  intro ys
  induction ys with
  | nil => intro fs errs p _; rfl
  | cons y ys ih =>
    intro fs errs p hp
    unfold processYears
    cases he : (processYear env cat t fs errs y).2 with
    | some e =>
      simp only [he]
      exact processYear_frame env cat t fs errs y p hp
    | none =>
      simp only [he]
      rw [ih _ _ p hp]
      exact processYear_frame env cat t fs errs y p hp

/-- `FS.read` depends on `files` alone. -/
theorem FS.read_files_congr (fs g : FS) (h : fs.files = g.files) (p : String) :
    fs.read p = g.read p := by
  unfold FS.read
  rw [h]

/-- `os.path.exists` depends on `files` alone. -/
theorem FS.pathExists_files_congr (fs g : FS) (h : fs.files = g.files) (p : String) :
    fs.pathExists p = g.pathExists p := by
  unfold FS.pathExists
  rw [FS.read_files_congr fs g h]

/-- `FS.write` transforms `files` as a function of `files` alone. -/
theorem FS.write_files_congr (fs g : FS) (h : fs.files = g.files) (p c : String) :
    (fs.write p c).files = (g.write p c).files := by
  unfold FS.write
  simp [h]

/-- The error list accumulated by one year's document loop is exactly the
spec's "DocumentURLs that failed fetch", appended to the incoming list, and
the resulting files agree with the replay's. -/
theorem processDocs_replay (env : Env) (d y : String) :
    ∀ (us : List String) (fs g : FS) (errs : List String), fs.files = g.files →
      (processDocs env d y fs errs us).2.1 = errs ++ (failedFetchesDocs env d y g us).2
      ∧ (processDocs env d y fs errs us).1.files = (failedFetchesDocs env d y g us).1.files := by
  intro us
  induction us with
  | nil => intro fs g errs h; exact ⟨(List.append_nil errs).symm, h⟩
  | cons u us ih =>
    intro fs g errs h
    have hex := FS.pathExists_files_congr fs g h (docFilePath d y u)
    rw [processDocs, failedFetchesDocs, processDocument]
    by_cases hge : g.pathExists (docFilePath d y u) = true
    · have hfe : fs.pathExists (docFilePath d y u) = true := by rw [hex]; exact hge
      simp only [hfe, hge, if_true]
      exact ih fs g errs h
    · have hge' : g.pathExists (docFilePath d y u) = false := by simpa using hge
      have hfe' : fs.pathExists (docFilePath d y u) = false := by rw [hex]; exact hge'
      cases hf : (fetchHTML env.net u).2 with
      | ok html =>
        simp only [hfe', hge', Bool.false_eq_true, if_false, hf]
        exact ih _ _ errs (FS.write_files_congr fs g h _ _)
      | error e =>
        simp only [hfe', hge', Bool.false_eq_true, if_false, hf]
        obtain ⟨h1, h2⟩ := ih fs g (errs ++ [u]) h
        refine ⟨?_, h2⟩
        rw [h1, List.append_assoc]
        rfl

/-- The error list accumulated across a type's years (when no year aborts) is
exactly the spec's "DocumentURLs that failed fetch during that type's run",
appended to the incoming list. -/
theorem processYears_replay (env : Env) (cat t : String) :
    ∀ (ys : List String) (fs g : FS) (errs : List String), fs.files = g.files →
      (processYears env cat t fs errs ys).2 = none →
      (processYears env cat t fs errs ys).1.2.1
          = errs ++ (failedFetchesYears env (dirPath cat t) g ys).2
      ∧ (processYears env cat t fs errs ys).1.1.files
          = (failedFetchesYears env (dirPath cat t) g ys).1.files := by
  intro ys
  induction ys with
  | nil => intro fs g errs h _; exact ⟨(List.append_nil errs).symm, h⟩
  | cons y ys ih =>
    intro fs g errs h hnone
    cases hf : (fetchAvailablePages env y).2 with
    | error e =>
      exfalso
      have hy2 : (processYear env cat t fs errs y).2 = some e := by
        unfold processYear
        simp only [hf]
      rw [processYears] at hnone
      simp only [hy2] at hnone
      exact Option.noConfusion hnone
    | ok pages =>
      have hy2 : (processYear env cat t fs errs y).2 = none := by
        unfold processYear
        simp only [hf]
      have hyfs : (processYear env cat t fs errs y).1.1
          = (processDocs env (dirPath cat t) ((pySplit y '/').getLastD "")
              (fs.mkdirAll [DATA_DIR, DATA_DIR ++ "/" ++ cat, dirPath cat t]) errs pages).1 := by
        unfold processYear
        simp only [hf]
      have hyerrs : (processYear env cat t fs errs y).1.2.1
          = (processDocs env (dirPath cat t) ((pySplit y '/').getLastD "")
              (fs.mkdirAll [DATA_DIR, DATA_DIR ++ "/" ++ cat, dirPath cat t]) errs pages).2.1 := by
        unfold processYear
        simp only [hf]
      have hdocs := processDocs_replay env (dirPath cat t) ((pySplit y '/').getLastD "")
        pages (fs.mkdirAll [DATA_DIR, DATA_DIR ++ "/" ++ cat, dirPath cat t]) g errs h
      rw [processYears] at hnone ⊢
      simp only [hy2] at hnone ⊢
      rw [failedFetchesYears]
      simp only [hf]
      have hfiles : (processYear env cat t fs errs y).1.1.files
          = (failedFetchesDocs env (dirPath cat t) ((pySplit y '/').getLastD "") g pages).1.files := by
        rw [hyfs]
        exact hdocs.2
      obtain ⟨hr1, hr2⟩ := ih (processYear env cat t fs errs y).1.1
        (failedFetchesDocs env (dirPath cat t) ((pySplit y '/').getLastD "") g pages).1
        (processYear env cat t fs errs y).1.2.1 hfiles hnone
      refine ⟨?_, hr2⟩
      rw [hr1, hyerrs, hdocs.1, List.append_assoc]

/-- Claim C3: after a type's years all complete, the in-memory error list is
exactly the DocumentURLs that failed fetch during that type's run, and
`errorURL.txt` is written (newline-joined, replacing prior contents) exactly
when that list is non-empty, its content being precisely that list. -/
theorem c3_error_sidecar (env : Env) (st : RunState) (cat t : String)
    (years : List String)
    (hy : (fetchAvailableYears env.net env.parse t).2 = Except.ok years)
    (hnone : (processYears env cat t st.fs [] years).2 = none) :
    (processYears env cat t st.fs [] years).1.2.1
        = (failedFetchesYears env (dirPath cat t) st.fs years).2
    ∧ ((failedFetchesYears env (dirPath cat t) st.fs years).2 = [] →
        (processType env st cat t).1.fs.read (errPath cat t)
          = st.fs.read (errPath cat t))
    ∧ ((failedFetchesYears env (dirPath cat t) st.fs years).2 ≠ [] →
        (processType env st cat t).1.fs.read (errPath cat t)
          = some (String.intercalate "\n"
              (failedFetchesYears env (dirPath cat t) st.fs years).2)) := by
  obtain ⟨herrs, _⟩ := processYears_replay env cat t years st.fs st.fs [] rfl hnone
  rw [List.nil_append] at herrs
  have hframe := processYears_frame env cat t years st.fs [] (errPath cat t)
    (by rw [lastChar_errPath]; decide)
  refine ⟨herrs, ?_, ?_⟩
  · intro hempty
    have hisE : (processYears env cat t st.fs [] years).1.2.1.isEmpty = true := by
      rw [herrs, hempty]
      rfl
    unfold processType
    simp only [hy, hnone, hisE, if_true]
    exact hframe
  · intro hne
    have hisE : (processYears env cat t st.fs [] years).1.2.1.isEmpty = false := by
      rw [herrs]
      cases hc : (failedFetchesYears env (dirPath cat t) st.fs years).2 with
      | nil => exact absurd hc hne
      | cons a l => rfl
    unfold processType
    simp only [hy, hnone, hisE, Bool.false_eq_true, if_false]
    rw [FS.read_write_self, herrs]

/-- Witness for C3 under `envSoft`: the single document fetch soft-fails, and
`errorURL.txt` holds exactly that one URL. -/
theorem c3_witness :
    (fetchAvailableYears envSoft.net envSoft.parse "ukpga").2
        = Except.ok ["http://www.legislation.gov.uk/2024"]
    ∧ (processYears envSoft "Primary Legislation" "ukpga" fsE []
        ["http://www.legislation.gov.uk/2024"]).2 = none
    ∧ (processType envSoft (initState fsE) "Primary Legislation" "ukpga").1.fs.read
        (errPath "Primary Legislation" "ukpga")
      = some (String.intercalate "\n"
          (failedFetchesYears envSoft (dirPath "Primary Legislation" "ukpga") fsE
            ["http://www.legislation.gov.uk/2024"]).2) := by
  refine ⟨by decide, by decide, ?_⟩
  exact (c3_error_sidecar envSoft (initState fsE) "Primary Legislation" "ukpga"
    ["http://www.legislation.gov.uk/2024"] (by decide) (by decide)).2.2 (by decide)

/-- Claim C10: a type whose run ends with an empty error list performs no
write to its `errorURL.txt`, so a pre-existing sidecar file keeps its old
contents. -/
theorem c10_clean_run_keeps_old_sidecar (env : Env) (st : RunState) (cat t : String)
    (years : List String) (fs' : FS) (ev2 : List Ev)
    (hy : (fetchAvailableYears env.net env.parse t).2 = Except.ok years)
    (hr : processYears env cat t st.fs [] years = ((fs', [], ev2), none)) :
    (processType env st cat t).2 = none
    ∧ (processType env st cat t).1.fs.read (errPath cat t)
        = st.fs.read (errPath cat t) := by
  have hframe := processYears_frame env cat t years st.fs [] (errPath cat t)
    (by rw [lastChar_errPath]; decide)
  unfold processType
  simp only [hy, hr, List.isEmpty_nil, if_true]
  exact ⟨trivial, by rw [← hframe, hr]⟩

/-- Witness for C10 under `envHappy`: a clean run over a filesystem whose
sidecar already holds `old`, which survives unchanged. -/
theorem c10_witness :
    (fetchAvailableYears envHappy.net envHappy.parse "ukpga").2
        = Except.ok ["http://www.legislation.gov.uk/2024"]
    ∧ (processType envHappy
        (initState ⟨[(errPath "Primary Legislation" "ukpga", "old")], []⟩)
        "Primary Legislation" "ukpga").1.fs.read (errPath "Primary Legislation" "ukpga")
      = some "old" := by
  refine ⟨by decide, ?_⟩
  have h := c10_clean_run_keeps_old_sidecar envHappy
    (initState ⟨[(errPath "Primary Legislation" "ukpga", "old")], []⟩)
    "Primary Legislation" "ukpga" ["http://www.legislation.gov.uk/2024"]
    ((processYears envHappy "Primary Legislation" "ukpga"
      ⟨[(errPath "Primary Legislation" "ukpga", "old")], []⟩ []
      ["http://www.legislation.gov.uk/2024"]).1.1)
    ((processYears envHappy "Primary Legislation" "ukpga"
      ⟨[(errPath "Primary Legislation" "ukpga", "old")], []⟩ []
      ["http://www.legislation.gov.uk/2024"]).1.2.2)
    (by decide) (by decide)
  rw [h.2]
  decide

end Scraper
